import Mathlib

/-!
Shallow embedding of the TeiNam/rds_instance_info collector core:
the AWS session broker (`src/utils/aws_session_manager.py`), the credential
strategies (`src/utils/session_strategy.py`), the configuration auth-mode
selection (`src/utils/config.py`) and the collection orchestrator
(`src/collectors/rds_instance_info_collector.py`).

Machine conventions used throughout:
* times are `Nat` seconds (monotonic clock of `cachetools.TTLCache`);
* Python dictionaries are association lists with string keys;
* fallible Python code is `Except PyErr`;
* network effects (boto3 profile resolution, STS calls, RDS paginated
  listing, MongoDB writes) are oracles passed in as functions, and the
  definitions count the round trips the source code would perform.
-/

namespace RdsInfo

/-- Python runtime values as they occur on the collector's data path.
`datetime` carries the string its `strftime("%Y-%m-%d %H:%M:%S KST")`
rendering would produce (the only use the source makes of it). -/
inductive PyVal where
  | none
  | str (s : String)
  | int (n : Int)
  | bool (b : Bool)
  | datetime (formatted : String)
  | dict (entries : List (String × PyVal))
  | list (elems : List PyVal)
deriving Repr

/-- Python truthiness (`if x:`) for the embedded values. -/
def pyTruthy : PyVal → Bool
  | .none => false
  | .str s => !s.isEmpty
  | .int n => n != 0
  | .bool b => b
  | .datetime _ => true
  | .dict entries => !entries.isEmpty
  | .list elems => !elems.isEmpty

/-- A Python dict with string keys, as an association list (keys unique by
construction of the operations below). -/
abbrev PyDict := List (String × PyVal)

/-- `d.get(k)` with the implicit default `None`. -/
def dictGet (d : PyDict) (k : String) : PyVal :=
  match List.lookup k d with
  | some v => v
  | Option.none => PyVal.none

/-- `d.get(k, default)`. -/
def dictGetD (d : PyDict) (k : String) (dflt : PyVal) : PyVal :=
  match List.lookup k d with
  | some v => v
  | Option.none => dflt

/-- Python dict insertion: an existing key keeps its position and takes the
new value, a new key is appended (insertion order). -/
def dictInsert (d : PyDict) (k : String) (v : PyVal) : PyDict :=
  if d.any (fun e => e.1 == k) then
    d.map (fun e => if e.1 == k then (k, v) else e)
  else d ++ [(k, v)]

/-- The Python exceptions the embedded code can raise. -/
inductive PyErr where
  | keyError (k : String)
  | typeError (msg : String)
  | attributeError (msg : String)
deriving Repr, DecidableEq

/-- `str(e)` as used when the parser stores the error message. -/
def PyErr.message : PyErr → String
  | .keyError k => k
  | .typeError m => m
  | .attributeError m => m

/-- `v.startswith(p)`: only strings have the method.  Prefix comparison is
done character by character (the kernel-computable form of
`String.startsWith`). -/
def pyStartswith (v : PyVal) (p : String) : Except PyErr Bool :=
  match v with
  | .str s => Except.ok (p.data.isPrefixOf s.data)
  | _ => Except.error (PyErr.attributeError "startswith")

/-- `v.get(k)`: only dicts have the method; default is `None`. -/
def pyDictGetMethod (v : PyVal) (k : String) : Except PyErr PyVal :=
  match v with
  | .dict d => Except.ok (dictGet d k)
  | _ => Except.error (PyErr.attributeError "get")

/-- `v[k]` subscript on a dict value. -/
def pySubscript (v : PyVal) (k : String) : Except PyErr PyVal :=
  match v with
  | .dict d =>
    match List.lookup k d with
    | some x => Except.ok x
    | Option.none => Except.error (PyErr.keyError k)
  | _ => Except.error (PyErr.typeError "object is not subscriptable")

/-- `v.strftime(...)`: only datetimes have the method. -/
def pyStrftime (v : PyVal) : Except PyErr String :=
  match v with
  | .datetime s => Except.ok s
  | _ => Except.error (PyErr.attributeError "strftime")

/-- `for x in v`: only list values are iterable in this embedding. -/
def pyIter (v : PyVal) : Except PyErr (List PyVal) :=
  match v with
  | .list xs => Except.ok xs
  | _ => Except.error (PyErr.typeError "object is not iterable")

/-! ## Sessions and credential strategies (`src/utils/session_strategy.py`) -/

/-- A boto3 Session: either bound to a locally configured profile
(`boto3.Session(profile_name=..., region_name=...)`, the SSO path) or to an
explicit temporary credential set (the role-assumption path). -/
inductive Session where
  | profile (profile_name : String) (region_name : String)
  | credentials (aws_access_key_id aws_secret_access_key aws_session_token : String)
      (region_name : String)
deriving Repr, DecidableEq

/-- The temporary credential set returned by STS `assume_role`. -/
structure Credentials where
  AccessKeyId : String
  SecretAccessKey : String
  SessionToken : String
deriving Repr, DecidableEq

/-- `IAMRoleSessionStrategy.create_session` (session_strategy.py lines 212-233):
builds the deterministic role ARN and session name, calls `assume_role` (an
oracle here, keyed by ARN and session name), wraps the returned credentials in
a new Session; every exception is caught and surfaces as `None`. -/
def iam_role_create_session (assume_role : String → String → Except String Credentials)
    (role_name default_region account_id : String) : Option Session :=
  let role_arn := "arn:aws:iam::" ++ account_id ++ ":role/" ++ role_name
  let session_name := "monitoring-" ++ account_id
  match assume_role role_arn session_name with
  | Except.ok credentials =>
      some (Session.credentials credentials.AccessKeyId credentials.SecretAccessKey
        credentials.SessionToken default_region)
  | Except.error _ => Option.none

/-! ## Auth-mode selection (`src/utils/config.py` / collector `__init__`) -/

/-- Python `s.lower()`, character by character (kernel-computable form of
`String.toLower`). -/
def pyStrLower (s : String) : String :=
  String.mk (s.data.map Char.toLower)

/-- `Config.from_env` (config.py line 71):
`auth_type = 'sso' if environment.lower() == 'development' else 'iam_role'`. -/
def authTypeFromEnvironment (environment : String) : String :=
  if pyStrLower environment == "development" then "sso" else "iam_role"

/-- The mechanism by which a session for a target account is produced. -/
inductive SessionMechanism where
  | ssoProfile (profile_name : String)
  | assumeRole (role_arn : String)
deriving Repr, DecidableEq

/-- Classify a mechanism as the auth type it realizes. -/
def mechanismAuthType : SessionMechanism → String
  | .ssoProfile _ => "sso"
  | .assumeRole _ => "iam_role"

/-- `RDSInstanceCollector.__init__` (rds_instance_info_collector.py lines 47-52)
constructs `AWSSSOSessionManager` unconditionally, and that manager's
`get_session` (aws_session_manager.py lines 33-39) always builds
`boto3.Session(profile_name=f"AdministratorAccess-{account_id}")` — the
SSO-profile mechanism.  The environment/mode is not consulted anywhere on this
path, which the unused `environment` argument records. -/
def collectorSessionMechanism (environment account_id : String) : SessionMechanism :=
  SessionMechanism.ssoProfile ("AdministratorAccess-" ++ account_id)

/-! ## The TTL session cache (`cachetools.TTLCache(maxsize=100, ttl=8*3600)`)

`aws_session_manager.py` line 18 instantiates `cachetools.TTLCache`.  The
model below follows the library's semantics: entries carry an absolute expiry
instant (`insertion time + ttl`); `in` reports a key present only while
`now < expires`; reading an entry moves it to the most-recently-used end;
insertion first drops expired entries, then — for a new key — evicts
least-recently-used entries while the cache is full, and appends the entry at
the most-recently-used end. -/

/-- One cache slot: key, cached session, absolute expiry instant. -/
structure CacheEntry where
  key : String
  value : Session
  expires : Nat
deriving Repr, DecidableEq

/-- The TTL cache state; `entries` is kept in least-recently-used-first
order. -/
structure TTLCacheState where
  maxsize : Nat
  ttl : Nat
  entries : List CacheEntry
deriving Repr, DecidableEq

/-- `self._session_cache = TTLCache(maxsize=100, ttl=8 * 3600)`
(aws_session_manager.py line 18). -/
def sessionCacheInit : TTLCacheState :=
  { maxsize := 100, ttl := 8 * 3600, entries := [] }

/-- `key in cache`: some entry for the key exists and has not expired. -/
def ttlContains (c : TTLCacheState) (now : Nat) (k : String) : Bool :=
  c.entries.any (fun e => e.key == k && decide (now < e.expires))

/-- Move the entry for `k` (if any) to the most-recently-used end. -/
def moveToEnd (entries : List CacheEntry) (k : String) : List CacheEntry :=
  entries.filter (fun e => !(e.key == k)) ++ entries.filter (fun e => e.key == k)

/-- `cache[key]` read: returns the live entry's value and refreshes its LRU
position; an absent or expired key yields `none` (KeyError in Python — the
source only reads after a successful `in` check under the same lock). -/
def ttlGetItem (c : TTLCacheState) (now : Nat) (k : String) :
    Option Session × TTLCacheState :=
  match c.entries.find? (fun e => e.key == k) with
  | some e =>
      if now < e.expires then
        (some e.value, { c with entries := moveToEnd c.entries k })
      else (Option.none, c)
  | Option.none => (Option.none, c)

/-- Drop all expired entries (performed by the library at insertion time). -/
def ttlExpire (c : TTLCacheState) (now : Nat) : TTLCacheState :=
  { c with entries := c.entries.filter (fun e => decide (now < e.expires)) }

/-- `while currsize + 1 > maxsize: popitem()` — evict least-recently-used
entries (list head) until a slot is free for the incoming entry. -/
def evictWhileFull (maxsize : Nat) : List CacheEntry → List CacheEntry
  | [] => []
  | e :: rest =>
      if maxsize ≤ rest.length + 1 then evictWhileFull maxsize rest else e :: rest

/-- `cache[key] = value`: expire, then either update an existing key in place
(moved to the MRU end with a fresh expiry) or evict-while-full and append. -/
def ttlSetItem (c : TTLCacheState) (now : Nat) (k : String) (v : Session) :
    TTLCacheState :=
  let c1 := ttlExpire c now
  let entries :=
    if c1.entries.any (fun e => e.key == k) then
      c1.entries.filter (fun e => !(e.key == k)) ++ [⟨k, v, now + c1.ttl⟩]
    else
      evictWhileFull c1.maxsize c1.entries ++ [⟨k, v, now + c1.ttl⟩]
  { c1 with entries := entries }

/-! ## The session broker (`src/utils/aws_session_manager.py`) -/

/-- `AWSSSOSessionManager.DEFAULT_REGION`. -/
def DEFAULT_REGION : String := "ap-northeast-2"

/-- What one `get_session` call produced: the returned value, the cache
afterwards, and how many network-visible effects the call performed
(`boto3.Session` constructions and STS `get_caller_identity` round trips). -/
structure GetSessionOutcome where
  result : Option Session
  cache : TTLCacheState
  session_constructions : Nat
  validation_calls : Nat
deriving Repr, DecidableEq

/-- `AWSSSOSessionManager.get_session` (aws_session_manager.py lines 22-59),
run to completion by a single caller.
* `profile_exists p` — whether `boto3.Session(profile_name=p, ...)`
  constructs (a missing profile raises `ProfileNotFound`, caught at line 57);
* `sts_ok a` — whether the `sts.get_caller_identity()` validation round trip
  for account `a` succeeds (any failure is caught at line 57).
Counts: a hit performs no construction and no validation call; a miss with an
existing profile performs exactly one construction and one validation round
trip; only a session whose validation succeeded is inserted into the cache. -/
def get_session (profile_exists : String → Bool) (sts_ok : String → Bool)
    (cache : TTLCacheState) (account_id : String) (now : Nat) : GetSessionOutcome :=
  let cache_key := account_id
  if ttlContains cache now cache_key then
    let hit := ttlGetItem cache now cache_key
    ⟨hit.1, hit.2, 0, 0⟩
  else
    let profile_name := "AdministratorAccess-" ++ account_id
    if !profile_exists profile_name then
      ⟨Option.none, cache, 0, 0⟩
    else
      let session := Session.profile profile_name DEFAULT_REGION
      if sts_ok account_id then
        ⟨some session, ttlSetItem cache now cache_key session, 1, 1⟩
      else
        ⟨Option.none, cache, 1, 1⟩

/-- An `asyncio.Lock` (aws_session_manager.py line 19). -/
structure AsyncioLock where
  locked : Bool := false
deriving Repr, DecidableEq

/-- The fields of `AWSSSOSessionManager` relevant to `clear_cache`. -/
structure AWSSSOSessionManagerState where
  sso_profile : String
  session_cache : TTLCacheState
  cache_lock : AsyncioLock
deriving Repr, DecidableEq

/-- Synchronous `with lock:` on an `asyncio.Lock`.  Under every supported
CPython this raises before the body runs: on 3.11+ the lock has no
`__enter__`, so the `with` statement raises `TypeError`; on older versions the
inherited `__enter__` itself raises `RuntimeError`.  Either way the body is
never entered and the state is unchanged. -/
def withSyncLock {σ : Type} (lock : AsyncioLock) (st : σ) (body : σ → σ) :
    Except PyErr Unit × σ :=
  (Except.error (PyErr.typeError
    "asyncio.Lock does not support the synchronous context manager protocol"), st)

/-- `AWSSSOSessionManager.clear_cache` (aws_session_manager.py lines 141-144):
`with self._cache_lock:` followed by `self._session_cache.clear()`.  The body
runs under the synchronous `with` above. -/
def clear_cache (st : AWSSSOSessionManagerState) :
    Except PyErr Unit × AWSSSOSessionManagerState :=
  withSyncLock st.cache_lock st
    (fun s => { s with session_cache := { s.session_cache with entries := [] } })

/-! ## Interleaved `get_session` callers (the cold-key race)

`get_session` holds `_cache_lock` for the cache check (lines 27-29), releases
it, constructs and validates the candidate session with no lock held (lines
33-49), and re-acquires the lock to insert (lines 52-53).  On the
single-threaded asyncio loop a caller can only be preempted at `await`
points, so each of the three spans is one atomic step.  The model below runs
several callers of `get_session` for the same cold key under an explicit
schedule and counts the validation round trips. -/

/-- Where one caller stands inside `get_session`: before the locked cache
check, after a recorded miss (about to construct and validate), holding a
validated session (identified by the caller index) ready to insert, or done
with a result. -/
inductive CallerPhase where
  | start
  | creating
  | inserting (sessionId : Nat)
  | done (result : Option Nat)
deriving Repr, DecidableEq

/-- Shared state of the race: the cache slot for the single requested key,
each caller's phase, and the number of STS validation round trips so far. -/
structure RaceState where
  cacheEntry : Option Nat
  callers : List CallerPhase
  validation_calls : Nat
deriving Repr, DecidableEq

/-- One scheduler step: run caller `i` to its next `await` boundary.
`start` performs the locked cache check (hit returns the cached session,
miss proceeds); `creating` performs the construction + validation round trip
(assumed to succeed, producing the caller's own session object); `inserting`
performs the locked cache write and returns that session. -/
def raceStep (st : RaceState) (i : Nat) : RaceState :=
  match st.callers.get? i with
  | Option.none => st
  | some phase =>
    match phase with
    | .start =>
        match st.cacheEntry with
        | some s => { st with callers := st.callers.set i (.done (some s)) }
        | Option.none => { st with callers := st.callers.set i .creating }
    | .creating =>
        { st with callers := st.callers.set i (.inserting i),
                  validation_calls := st.validation_calls + 1 }
    | .inserting s =>
        { st with cacheEntry := some s,
                  callers := st.callers.set i (.done (some s)) }
    | .done _ => st

/-- Run a schedule (a list of caller indices) from a starting state. -/
def raceRun (schedule : List Nat) (st : RaceState) : RaceState :=
  schedule.foldl raceStep st

/-- Two callers about to request the same uncached account concurrently. -/
def coldTwoCallers : RaceState :=
  { cacheEntry := Option.none, callers := [.start, .start], validation_calls := 0 }

/-! ## Record normalization (`RDSInstanceCollector._parse_instance_data`,
rds_instance_info_collector.py lines 166-204) -/

/-- The tag dict comprehension
`{tag['Key']: tag['Value'] for tag in instance.get('TagList', [])}`:
subscripting a tag raises `KeyError`/`TypeError` as in Python; tag keys are
strings in this embedding (as they are in the AWS API). -/
def buildTags (tags : List PyVal) : Except PyErr PyDict :=
  tags.foldlM
    (fun acc tag => do
      let kv ← pySubscript tag "Key"
      let vv ← pySubscript tag "Value"
      match kv with
      | PyVal.str ks => pure (dictInsert acc ks vv)
      | _ => Except.error (PyErr.typeError "unhashable or non-string tag key"))
    []

/-- The serverless-config block (lines 169-174): subscript the raw
`ServerlessV2ScalingConfiguration` (known present and truthy), then call
`.get` for both capacities. -/
def serverlessBlock (inst : PyDict) : Except PyErr PyDict :=
  match pySubscript (PyVal.dict inst) "ServerlessV2ScalingConfiguration" with
  | Except.error e => Except.error e
  | Except.ok sc =>
    match pyDictGetMethod sc "MinCapacity" with
    | Except.error e => Except.error e
    | Except.ok minCap =>
      match pyDictGetMethod sc "MaxCapacity" with
      | Except.error e => Except.error e
      | Except.ok maxCap =>
          Except.ok [("MinCapacity", minCap), ("MaxCapacity", maxCap)]

/-- `instance.get('LatestRestorableTime').strftime(...) if
instance.get('LatestRestorableTime') else None` (lines 192-193). -/
def latestRestorableField (inst : PyDict) : Except PyErr PyVal :=
  if pyTruthy (dictGet inst "LatestRestorableTime") then
    match pyStrftime (dictGet inst "LatestRestorableTime") with
    | Except.error e => Except.error e
    | Except.ok s => Except.ok (PyVal.str s)
  else Except.ok PyVal.none

/-- The `try` body of `_parse_instance_data` (lines 168-197), in source
evaluation order: the engine test and serverless block first, then the
record literal's fallible entries (`LatestRestorableTime`'s `strftime`, the
tag comprehension); the first exception aborts the whole body.
`collected_at` stands for `self.get_kst_time()`. -/
def parseInstanceCore (inst : PyDict) (account_id region collected_at : String) :
    Except PyErr PyDict :=
  match pyStartswith (dictGetD inst "Engine" (PyVal.str "")) "aurora" with
  | Except.error e => Except.error e
  | Except.ok isAurora =>
    match (if isAurora && pyTruthy (dictGet inst "ServerlessV2ScalingConfiguration")
           then serverlessBlock inst
           else Except.ok ([] : PyDict)) with
    | Except.error e => Except.error e
    | Except.ok serverless_config =>
      match latestRestorableField inst with
      | Except.error e => Except.error e
      | Except.ok lrt =>
        match pyIter (dictGetD inst "TagList" (PyVal.list [])) with
        | Except.error e => Except.error e
        | Except.ok tagElems =>
          match buildTags tagElems with
          | Except.error e => Except.error e
          | Except.ok tags =>
            Except.ok
              [("AccountId", PyVal.str account_id),
               ("Region", PyVal.str region),
               ("DBInstanceIdentifier", dictGet inst "DBInstanceIdentifier"),
               ("DBInstanceStatus", dictGet inst "DBInstanceStatus"),
               ("Engine", dictGet inst "Engine"),
               ("EngineVersion", dictGet inst "EngineVersion"),
               ("DBInstanceClass", dictGet inst "DBInstanceClass"),
               ("MultiAZ", dictGet inst "MultiAZ"),
               ("StorageType", dictGet inst "StorageType"),
               ("AllocatedStorage", dictGet inst "AllocatedStorage"),
               ("MaintenanceWindow", dictGet inst "PreferredMaintenanceWindow"),
               ("BackupWindow", dictGet inst "PreferredBackupWindow"),
               ("BackupRetentionPeriod", dictGet inst "BackupRetentionPeriod"),
               ("AutoMinorVersionUpgrade", dictGet inst "AutoMinorVersionUpgrade"),
               ("PendingModifiedValues", dictGet inst "PendingModifiedValues"),
               ("LatestRestorableTime", lrt),
               ("ServerlessConfig",
                 if serverless_config.isEmpty then PyVal.none
                 else PyVal.dict serverless_config),
               ("Tags", PyVal.dict tags),
               ("CollectedAt", PyVal.str collected_at)]

/-- The error-path record of `_parse_instance_data` (lines 198-204). -/
def parseFallbackRecord (account_id region : String) (e : PyErr) : PyDict :=
  [("AccountId", PyVal.str account_id),
   ("Region", PyVal.str region),
   ("Error", PyVal.str e.message)]

/-- `RDSInstanceCollector._parse_instance_data`: the `try` body, with every
exception caught (line 198) and turned into the three-field fallback
record. -/
def _parse_instance_data (inst : PyDict) (account_id region collected_at : String) :
    PyDict :=
  match parseInstanceCore inst account_id region collected_at with
  | Except.ok rec => rec
  | Except.error e => parseFallbackRecord account_id region e

/-! ## Per-(account, region) collection (`collect_instance_data`,
rds_instance_info_collector.py lines 124-164) -/

/-- The outcome of the client acquisition + paginated listing for one
(account, region) pair, as an oracle value:
* `ok raws` — the concatenated `DBInstances` pages;
* `clientFail` — `get_client` returned `None` (lines 128-130);
* `apiError` — a `ClientError` escaped the listing (lines 156-160);
* `err` — any other exception (lines 162-164). -/
inductive FetchOutcome where
  | ok (raws : List PyDict)
  | clientFail
  | apiError (code msg : String)
  | err (msg : String)
deriving Repr

/-- Whether the outcome is one of the three failure shapes. -/
def FetchOutcome.failed : FetchOutcome → Bool
  | .ok _ => false
  | _ => true

/-- `RDSInstanceCollector.collect_instance_data`: on a successful listing,
parse every raw descriptor and keep the truthy ones
(`if parsed_instance:` at line 150); every failure shape is caught inside the
method and yields the empty list — the coroutine itself never raises. -/
def collect_instance_data (fetch : String → String → FetchOutcome)
    (collected_at account_id region : String) : List PyDict :=
  match fetch account_id region with
  | .ok raws =>
      (raws.map (fun raw => _parse_instance_data raw account_id region collected_at)).filter
        (fun rec => pyTruthy (PyVal.dict rec))
  | .clientFail => []
  | .apiError _ _ => []
  | .err _ => []

/-! ## The orchestrator (`collect_all_accounts`,
rds_instance_info_collector.py lines 206-245) -/

/-- The per-region task results for one account,
`asyncio.gather(*account_tasks, return_exceptions=True)` (line 224): one
entry per region in region order.  Since `collect_instance_data` catches
every exception internally, each task outcome is a list. -/
def accountRegionResults (fetch : String → String → FetchOutcome)
    (collected_at account_id : String) (regions : List String) : List (List PyDict) :=
  regions.map (collect_instance_data fetch collected_at account_id)

/-- `valid_instances` for one account (lines 227-232): the concatenation of
the per-region lists in region order. -/
def account_valid_instances (fetch : String → String → FetchOutcome)
    (collected_at account_id : String) (regions : List String) : List PyDict :=
  (accountRegionResults fetch collected_at account_id regions).flatten

/-- One `save_instances` call the orchestrator performed: the snapshot
document handed to the history sink (account id, `total_instances`, the
record list).  `save_instances` (lines 54-58) additionally returns without
writing when handed an empty list; the orchestrator (line 234) already
guards `if valid_instances:`, so an event is only ever recorded for a
non-empty aggregate. -/
structure AppendEvent where
  account_id : String
  total_instances : Nat
  instances : List PyDict
deriving Repr

/-- `RDSInstanceCollector.collect_all_accounts`:
* `sso_valid` — the result of `validate_sso_access()` (line 210); when false
  the method returns having written nothing;
* accounts are processed sequentially; for each, the per-region aggregate is
  computed and, only if non-empty, `save_instances` is called once;
* `sink_ok a` — whether the MongoDB write for account `a` succeeds;
  `save_instances` re-raises a failed write (lines 92-98), which escapes the
  orchestrator's `try` (line 243 logs and re-raises), aborting the remaining
  accounts — hence the `Except` result.
The value is the ordered list of sink append events performed. -/
def runAccountsLoop (fetch : String → String → FetchOutcome) (sink_ok : String → Bool)
    (collected_at : String) (regions : List String) :
    List String → List AppendEvent → Except String (List AppendEvent)
  | [], events => Except.ok events
  | account_id :: rest, events =>
      let valid := account_valid_instances fetch collected_at account_id regions
      if valid.isEmpty then runAccountsLoop fetch sink_ok collected_at regions rest events
      else if sink_ok account_id then
        runAccountsLoop fetch sink_ok collected_at regions rest
          (events ++ [⟨account_id, valid.length, valid⟩])
      else Except.error ("Error saving to MongoDB for account " ++ account_id)

/-- See `runAccountsLoop` for the per-account body (lines 216-239). -/
def collect_all_accounts (sso_valid : Bool) (fetch : String → String → FetchOutcome)
    (sink_ok : String → Bool) (collected_at : String)
    (accounts regions : List String) : Except String (List AppendEvent) :=
  if !sso_valid then Except.ok []
  else runAccountsLoop fetch sink_ok collected_at regions accounts []

/-- The append events of a run in which every sink write succeeds: one event
per account with a non-empty aggregate, in account order. -/
def appendEvents (fetch : String → String → FetchOutcome) (collected_at : String)
    (regions : List String) (accounts : List String) : List AppendEvent :=
  accounts.filterMap
    (fun account_id =>
      if (account_valid_instances fetch collected_at account_id regions).isEmpty
      then Option.none
      else some ⟨account_id,
        (account_valid_instances fetch collected_at account_id regions).length,
        account_valid_instances fetch collected_at account_id regions⟩)

/-! ## Claim theorems -/

/-- C1: the claim says that when two callers invoke `get_session` concurrently
on a cold key, exactly one creation/validation round trip is performed and
both receive the same Session.  The code releases `_cache_lock` between the
miss check and the creation, so the interleaving in which both callers check
the cache before either validates performs two validation round trips and
hands the callers two distinct Session objects — while a purely sequential
pair of calls (second caller starts after the first finished) does perform
exactly one round trip and shares the session.  This refutes the
deduplication claim on the code as written. -/
theorem get_session_race_duplicate_validations :
    (raceRun [0, 1, 0, 1, 0, 1] coldTwoCallers).validation_calls = 2 ∧
    (raceRun [0, 1, 0, 1, 0, 1] coldTwoCallers).callers
      = [CallerPhase.done (some 0), CallerPhase.done (some 1)] ∧
    (raceRun [0, 0, 0, 1] coldTwoCallers).validation_calls = 1 ∧
    (raceRun [0, 0, 0, 1] coldTwoCallers).callers
      = [CallerPhase.done (some 0), CallerPhase.done (some 0)] := by
  refine ⟨rfl, rfl, rfl, rfl⟩

/-- C2 counterexample: in `production` mode `Config.from_env` selects the
`iam_role` auth type, yet the collector's session creation for any account
uses the SSO-profile mechanism — the strategy actually used is not the one
the mode chose. -/
theorem collector_ignores_auth_mode_counterexample :
    authTypeFromEnvironment "production" = "iam_role" ∧
    collectorSessionMechanism "production" "123456789012"
      = SessionMechanism.ssoProfile "AdministratorAccess-123456789012" ∧
    mechanismAuthType (collectorSessionMechanism "production" "123456789012") = "sso" := by
  refine ⟨rfl, rfl, rfl⟩

/-- C2 amended: `Config.from_env` does select the auth type once from the
operating mode (`development` → sso, otherwise → iam_role), but the collector
never consumes that selection: for every mode and every account its session
creation goes through the SSO-profile mechanism. -/
theorem auth_mode_selected_once_but_unused (environment account_id : String) :
    (pyStrLower environment = "development" → authTypeFromEnvironment environment = "sso") ∧
    (pyStrLower environment ≠ "development" → authTypeFromEnvironment environment = "iam_role") ∧
    collectorSessionMechanism environment account_id
      = SessionMechanism.ssoProfile ("AdministratorAccess-" ++ account_id) := by
  refine ⟨fun h => ?_, fun h => ?_, rfl⟩ <;> simp [authTypeFromEnvironment, h]

/-- Witness for the amended C2 at a concrete mode and account. -/
theorem auth_mode_selected_once_but_unused_witness :
    authTypeFromEnvironment "production" = "iam_role" ∧
    authTypeFromEnvironment "development" = "sso" ∧
    collectorSessionMechanism "production" "111122223333"
      = SessionMechanism.ssoProfile "AdministratorAccess-111122223333" :=
  ⟨(auth_mode_selected_once_but_unused "production" "111122223333").2.1 (by decide),
   (auth_mode_selected_once_but_unused "development" "111122223333").1 (by decide),
   (auth_mode_selected_once_but_unused "production" "111122223333").2.2⟩

/-- C4: the claim says `clear_cache` synchronously empties all cache entries
without raising.  The method enters `with self._cache_lock:` on an
`asyncio.Lock` from synchronous code, which raises before the body runs, so
the call raises and the cache keeps every entry it had. -/
theorem clear_cache_raises_and_leaves_cache (st : AWSSSOSessionManagerState) :
    (clear_cache st).1 = Except.error (PyErr.typeError
      "asyncio.Lock does not support the synchronous context manager protocol") ∧
    (clear_cache st).2 = st := by
  exact ⟨rfl, rfl⟩

/-- In a cache whose keys are distinct (true of any real dict-backed cache),
`find?` on a member's key returns that member. -/
theorem find_entry_of_mem_nodup {e : CacheEntry} {l : List CacheEntry}
    (hnodup : (l.map CacheEntry.key).Nodup) (hmem : e ∈ l) :
    l.find? (fun e2 => e2.key == e.key) = some e := by
  induction l with
  | nil => cases hmem
  | cons x rest ih =>
      rw [List.map_cons, List.nodup_cons] at hnodup
      rcases List.mem_cons.mp hmem with h | h
      · subst h
        exact List.find?_cons_of_pos _ (by simp)
      · have hx : (x.key == e.key) = false := by
          refine beq_eq_false_iff_ne.mpr ?_
          intro hk
          exact hnodup.1 (hk ▸ List.mem_map_of_mem CacheEntry.key h)
        rw [List.find?_cons_of_neg _ (by simp [hx]), ih hnodup.2 h]

/-- C6: a non-expired cache entry (one whose expiry instant, insertion time
plus the 8-hour TTL, is still in the future) is returned by `get_session`
with no session construction and no validation round trip; once every entry
for the key has expired, the key is treated as absent and the next
`get_session` performs exactly one fresh construction-and-validation cycle. -/
theorem cached_session_ttl_discipline
    (profile_exists sts_ok : String → Bool) (cache : TTLCacheState)
    (k : String) (now : Nat) :
    ((cache.entries.map CacheEntry.key).Nodup →
      ∀ s expires, CacheEntry.mk k s expires ∈ cache.entries → now < expires →
        get_session profile_exists sts_ok cache k now
          = ⟨some s, { cache with entries := moveToEnd cache.entries k }, 0, 0⟩) ∧
    ((∀ e ∈ cache.entries, e.key = k → e.expires ≤ now) →
      ttlContains cache now k = false ∧
      (profile_exists ("AdministratorAccess-" ++ k) = true →
        (get_session profile_exists sts_ok cache k now).session_constructions = 1 ∧
        (get_session profile_exists sts_ok cache k now).validation_calls = 1)) := by
  constructor
  · intro hnodup s expires hmem hlive
    have hcontains : ttlContains cache now k = true := by
      unfold ttlContains
      rw [List.any_eq_true]
      exact ⟨⟨k, s, expires⟩, hmem, by simp [hlive]⟩
    have hfind := find_entry_of_mem_nodup hnodup hmem
    simp only [CacheEntry.mk.injEq] at hfind
    simp [get_session, ttlGetItem, hcontains, hfind, hlive]
  · intro hexpired
    have hcontains : ttlContains cache now k = false := by
      unfold ttlContains
      rw [List.any_eq_false]
      intro e he
      simp only [Bool.and_eq_true, beq_iff_eq, decide_eq_true_eq, not_and]
      intro hk
      exact Nat.not_lt.mpr (hexpired e he hk)
    refine ⟨hcontains, fun hprofile => ?_⟩
    cases h2 : sts_ok k <;> simp [get_session, hcontains, hprofile, h2]

/-- Witness for C6: a live entry for account `111` is served from the cache
with zero network effects, and once it is past its expiry the key reads as
absent and a fresh call performs exactly one construction and one validation
round trip. -/
theorem cached_session_ttl_discipline_witness :
    (get_session (fun _ => true) (fun _ => true)
        ⟨100, 28800, [⟨"111", Session.profile "AdministratorAccess-111" DEFAULT_REGION, 28800⟩]⟩
        "111" 100).validation_calls = 0 ∧
    (get_session (fun _ => true) (fun _ => true)
        ⟨100, 28800, [⟨"111", Session.profile "AdministratorAccess-111" DEFAULT_REGION, 28800⟩]⟩
        "111" 30000).validation_calls = 1 := by
  constructor
  · have h := (cached_session_ttl_discipline (fun _ => true) (fun _ => true)
      ⟨100, 28800, [⟨"111", Session.profile "AdministratorAccess-111" DEFAULT_REGION, 28800⟩]⟩
      "111" 100).1 (by decide)
      (Session.profile "AdministratorAccess-111" DEFAULT_REGION) 28800 (by decide) (by decide)
    rw [h]
  · exact ((cached_session_ttl_discipline (fun _ => true) (fun _ => true)
      ⟨100, 28800, [⟨"111", Session.profile "AdministratorAccess-111" DEFAULT_REGION, 28800⟩]⟩
      "111" 30000).2 (by decide) |>.2 rfl).2

/-- C7: on a cache miss, a failed validation round trip (or a profile that
fails to resolve at `boto3.Session` construction) is caught and surfaces as
`None`, with the candidate session never inserted into the cache; likewise
the IAM-role strategy catches a failed `assume_role` and returns `None`. -/
theorem session_failure_returns_none_uncached
    (profile_exists sts_ok : String → Bool) (cache : TTLCacheState)
    (account_id : String) (now : Nat)
    (hmiss : ttlContains cache now account_id = false) :
    (sts_ok account_id = false →
      profile_exists ("AdministratorAccess-" ++ account_id) = true →
      (get_session profile_exists sts_ok cache account_id now).result = Option.none ∧
      (get_session profile_exists sts_ok cache account_id now).cache = cache) ∧
    (profile_exists ("AdministratorAccess-" ++ account_id) = false →
      (get_session profile_exists sts_ok cache account_id now).result = Option.none ∧
      (get_session profile_exists sts_ok cache account_id now).cache = cache) ∧
    (∀ (assume_role : String → String → Except String Credentials)
        (role_name default_region msg : String),
      assume_role ("arn:aws:iam::" ++ account_id ++ ":role/" ++ role_name)
          ("monitoring-" ++ account_id) = Except.error msg →
      iam_role_create_session assume_role role_name default_region account_id
        = Option.none) := by
  refine ⟨fun hsts hprofile => ?_, fun hprofile => ?_, ?_⟩
  · simp [get_session, hmiss, hprofile, hsts]
  · simp [get_session, hmiss, hprofile]
  · intro assume_role role_name default_region msg herr
    simp [iam_role_create_session, herr]

/-- Witness for C7 at a concrete cold cache: a failing STS validation and a
missing profile both yield `None` and an unchanged cache, and a failing
`assume_role` yields `None` from the IAM strategy. -/
theorem session_failure_returns_none_uncached_witness :
    (get_session (fun _ => true) (fun _ => false) sessionCacheInit "222" 0).result
      = Option.none ∧
    (get_session (fun _ => false) (fun _ => true) sessionCacheInit "222" 0).cache
      = sessionCacheInit ∧
    iam_role_create_session (fun _ _ => Except.error "AccessDenied")
      "mgmt-db-monitoring-assumerole" DEFAULT_REGION "222" = Option.none := by
  refine ⟨?_, ?_, ?_⟩
  · exact ((session_failure_returns_none_uncached (fun _ => true) (fun _ => false)
      sessionCacheInit "222" 0 rfl).1 rfl rfl).1
  · exact ((session_failure_returns_none_uncached (fun _ => false) (fun _ => true)
      sessionCacheInit "222" 0 rfl).2.1 rfl).2
  · exact (session_failure_returns_none_uncached (fun _ => true) (fun _ => false)
      sessionCacheInit "222" 0 rfl).2.2 (fun _ _ => Except.error "AccessDenied")
      "mgmt-db-monitoring-assumerole" DEFAULT_REGION "AccessDenied" rfl

/-- A failed (account, region) task — client acquisition failure, AWS API
error, or any other exception — yields the empty record list (every failure
shape is caught inside `collect_instance_data`). -/
theorem collect_instance_data_of_failed
    (fetch : String → String → FetchOutcome) (collected_at account_id region : String)
    (h : (fetch account_id region).failed = true) :
    collect_instance_data fetch collected_at account_id region = [] := by
  unfold collect_instance_data
  cases hf : fetch account_id region <;> rw [hf] at h <;>
    simp [FetchOutcome.failed] at h ⊢

/-- `collect_instance_data` depends only on the fetch outcome of its own
(account, region) pair. -/
theorem collect_instance_data_congr
    (fetch fetch2 : String → String → FetchOutcome) (collected_at account_id region : String)
    (h : fetch account_id region = fetch2 account_id region) :
    collect_instance_data fetch collected_at account_id region
      = collect_instance_data fetch2 collected_at account_id region := by
  unfold collect_instance_data
  rw [h]

/-- C3: when the task for one (account, region) pair fails, every other
(account, region) task still produces exactly the result it would produce in
a run without that failure, the failing region contributes zero records, and
the failing account's aggregate is the concatenation, in region order, of
the successful regions' record lists. -/
theorem region_failure_isolated
    (fetch fetch2 : String → String → FetchOutcome) (collected_at : String)
    (a0 r0 : String) (regions : List String)
    (hfail : (fetch a0 r0).failed = true)
    (hagree : ∀ a r, ¬(a = a0 ∧ r = r0) → fetch a r = fetch2 a r) :
    (∀ a, a ≠ a0 →
      account_valid_instances fetch collected_at a regions
        = account_valid_instances fetch2 collected_at a regions) ∧
    (∀ r, r ≠ r0 →
      collect_instance_data fetch collected_at a0 r
        = collect_instance_data fetch2 collected_at a0 r) ∧
    collect_instance_data fetch collected_at a0 r0 = [] ∧
    account_valid_instances fetch collected_at a0 regions
      = (regions.map (fun r => if r = r0 then []
          else collect_instance_data fetch collected_at a0 r)).flatten := by
  refine ⟨?_, ?_, collect_instance_data_of_failed fetch collected_at a0 r0 hfail, ?_⟩
  · intro a ha
    unfold account_valid_instances accountRegionResults
    congr 1
    refine List.map_congr_left (fun r _ => ?_)
    exact collect_instance_data_congr fetch fetch2 collected_at a r
      (hagree a r (fun hc => ha hc.1))
  · intro r hr
    exact collect_instance_data_congr fetch fetch2 collected_at a0 r
      (hagree a0 r (fun hc => hr hc.2))
  · unfold account_valid_instances accountRegionResults
    congr 1
    refine List.map_congr_left (fun r _ => ?_)
    by_cases hr : r = r0
    · subst hr
      rw [if_pos rfl]
      exact collect_instance_data_of_failed fetch collected_at a0 r hfail
    · rw [if_neg hr]

/-- Witness for C3: accounts `111`, `222` over two regions; the
(`111`, `ap-northeast-2`) task hits an AWS API error while every other pair
returns one record; the sibling region and the sibling account are
unaffected and `111`'s aggregate is exactly the surviving region's list. -/
theorem region_failure_isolated_witness :
    collect_instance_data
        (fun a r => if a = "111" ∧ r = "ap-northeast-2"
          then FetchOutcome.apiError "AccessDenied" "denied"
          else FetchOutcome.ok [[("DBInstanceIdentifier", PyVal.str "db-1")]])
        "ts" "111" "ap-northeast-2" = [] ∧
    account_valid_instances
        (fun a r => if a = "111" ∧ r = "ap-northeast-2"
          then FetchOutcome.apiError "AccessDenied" "denied"
          else FetchOutcome.ok [[("DBInstanceIdentifier", PyVal.str "db-1")]])
        "ts" "111" ["us-east-1", "ap-northeast-2"]
      = collect_instance_data
          (fun a r => if a = "111" ∧ r = "ap-northeast-2"
            then FetchOutcome.apiError "AccessDenied" "denied"
            else FetchOutcome.ok [[("DBInstanceIdentifier", PyVal.str "db-1")]])
          "ts" "111" "us-east-1" ++ [] := by
  have h := region_failure_isolated
    (fun a r => if a = "111" ∧ r = "ap-northeast-2"
      then FetchOutcome.apiError "AccessDenied" "denied"
      else FetchOutcome.ok [[("DBInstanceIdentifier", PyVal.str "db-1")]])
    (fun a r => FetchOutcome.ok [[("DBInstanceIdentifier", PyVal.str "db-1")]])
    "ts" "111" "ap-northeast-2" ["us-east-1", "ap-northeast-2"]
    (by decide)
    (fun a r hc => by simp [if_neg hc])
  refine ⟨h.2.2.1, ?_⟩
  rw [h.2.2.2]
  simp [h.2.2.1]

/-- With every sink write succeeding, `collect_all_accounts` returns the
append events accumulated left to right: exactly the accounts with a
non-empty aggregate, in account order. -/
theorem collect_all_accounts_of_sink_ok
    (fetch : String → String → FetchOutcome) (sink_ok : String → Bool)
    (collected_at : String) (regions : List String)
    (hsink : ∀ a, sink_ok a = true) (accounts : List String) :
    collect_all_accounts true fetch sink_ok collected_at accounts regions
      = Except.ok (appendEvents fetch collected_at regions accounts) := by
  have aux : ∀ (acc : List String) (events : List AppendEvent),
      runAccountsLoop fetch sink_ok collected_at regions acc events
      = Except.ok (events ++ appendEvents fetch collected_at regions acc) := by
    intro acc
    induction acc with
    | nil => intro events; simp [runAccountsLoop, appendEvents]
    | cons b rest ih =>
        intro events
        by_cases hb : (account_valid_instances fetch collected_at b regions).isEmpty
        · simp [runAccountsLoop, hb, ih, appendEvents, List.filterMap_cons]
        · simp [runAccountsLoop, hb, hsink b, ih, appendEvents,
            List.filterMap_cons, List.append_assoc]
  unfold collect_all_accounts
  simp only [Bool.not_true, Bool.false_eq_true, if_false]
  exact aux accounts []

/-- Unfolding `appendEvents` over the leading account. -/
theorem appendEvents_cons
    (fetch : String → String → FetchOutcome) (collected_at : String)
    (regions : List String) (b : String) (rest : List String) :
    appendEvents fetch collected_at regions (b :: rest)
      = if (account_valid_instances fetch collected_at b regions).isEmpty
        then appendEvents fetch collected_at regions rest
        else ⟨b, (account_valid_instances fetch collected_at b regions).length,
              account_valid_instances fetch collected_at b regions⟩
          :: appendEvents fetch collected_at regions rest := by
  rw [appendEvents, List.filterMap_cons]
  by_cases hb : (account_valid_instances fetch collected_at b regions).isEmpty
  · rw [if_pos hb, if_pos hb]
    rfl
  · rw [if_neg hb, if_neg hb]
    rfl

/-- Every append event belongs to one of the processed accounts, so an
account outside the list contributes no event. -/
theorem appendEvents_countP_of_not_mem
    (fetch : String → String → FetchOutcome) (collected_at : String)
    (regions : List String) (a : String) (accounts : List String)
    (ha : a ∉ accounts) :
    (appendEvents fetch collected_at regions accounts).countP
      (fun ev => ev.account_id == a) = 0 := by
  rw [List.countP_eq_zero]
  intro ev hev
  rw [appendEvents, List.mem_filterMap] at hev
  obtain ⟨b, hb, hfb⟩ := hev
  by_cases hempty : (account_valid_instances fetch collected_at b regions).isEmpty
  · rw [if_pos hempty] at hfb
    cases hfb
  · rw [if_neg hempty] at hfb
    cases hfb
    simp only [beq_iff_eq]
    exact fun hc => ha (hc ▸ hb)

/-- C5: with a valid SSO check and a healthy sink, the run performs zero
append (save) calls for an account whose aggregated per-region record list
is empty, and exactly one append call for an account whose aggregate is
non-empty. -/
theorem empty_aggregate_skips_sink
    (fetch : String → String → FetchOutcome) (sink_ok : String → Bool)
    (collected_at a : String) (accounts regions : List String)
    (hsink : ∀ b, sink_ok b = true)
    (hnodup : accounts.Nodup) (ha : a ∈ accounts) :
    collect_all_accounts true fetch sink_ok collected_at accounts regions
      = Except.ok (appendEvents fetch collected_at regions accounts) ∧
    (appendEvents fetch collected_at regions accounts).countP
        (fun ev => ev.account_id == a)
      = (if (account_valid_instances fetch collected_at a regions).isEmpty
          then 0 else 1) := by
  refine ⟨collect_all_accounts_of_sink_ok fetch sink_ok collected_at regions hsink accounts, ?_⟩
  induction accounts with
  | nil => cases ha
  | cons b rest ih =>
      rw [List.nodup_cons] at hnodup
      rw [appendEvents_cons]
      rcases List.mem_cons.mp ha with hab | harest
      · subst hab
        by_cases hb : (account_valid_instances fetch collected_at a regions).isEmpty
        · rw [if_pos hb, if_pos hb,
            appendEvents_countP_of_not_mem fetch collected_at regions a rest hnodup.1]
        · rw [if_neg hb, if_neg hb, List.countP_cons,
            appendEvents_countP_of_not_mem fetch collected_at regions a rest hnodup.1]
          simp
      · have hab : b ≠ a := fun hc => hnodup.1 (hc ▸ harest)
        by_cases hb : (account_valid_instances fetch collected_at b regions).isEmpty
        · rw [if_pos hb]
          exact ih hnodup.2 harest
        · rw [if_neg hb, List.countP_cons, ih hnodup.2 harest]
          simp [hab]

/-- Witness for C5: account `000` discovers nothing in any region and gets
zero sink appends; account `333` aggregates one record and gets exactly one
append. -/
theorem empty_aggregate_skips_sink_witness :
    (appendEvents
        (fun a _ => if a = "333"
          then FetchOutcome.ok [[("DBInstanceIdentifier", PyVal.str "db-1")]]
          else FetchOutcome.ok [])
        "ts" ["us-east-1"] ["000", "333"]).countP
        (fun ev => ev.account_id == "000") = 0 ∧
    (appendEvents
        (fun a _ => if a = "333"
          then FetchOutcome.ok [[("DBInstanceIdentifier", PyVal.str "db-1")]]
          else FetchOutcome.ok [])
        "ts" ["us-east-1"] ["000", "333"]).countP
        (fun ev => ev.account_id == "333") = 1 := by
  constructor
  · have h := (empty_aggregate_skips_sink
      (fun a _ => if a = "333"
        then FetchOutcome.ok [[("DBInstanceIdentifier", PyVal.str "db-1")]]
        else FetchOutcome.ok [])
      (fun _ => true) "ts" "000" ["000", "333"] ["us-east-1"]
      (fun _ => rfl) (by decide) (by decide)).2
    rw [h]
    rfl
  · have h := (empty_aggregate_skips_sink
      (fun a _ => if a = "333"
        then FetchOutcome.ok [[("DBInstanceIdentifier", PyVal.str "db-1")]]
        else FetchOutcome.ok [])
      (fun _ => true) "ts" "333" ["000", "333"] ["us-east-1"]
      (fun _ => rfl) (by decide) (by decide)).2
    rw [h]
    rfl

/-- A raw descriptor with tag list `[{Key: env, Value: prod}]`, a non-aurora
engine and no capacity-scaling configuration. -/
def rawProdTagged : PyDict :=
  [("DBInstanceIdentifier", PyVal.str "db-1"),
   ("Engine", PyVal.str "mysql"),
   ("TagList", PyVal.list [PyVal.dict [("Key", PyVal.str "env"),
                                       ("Value", PyVal.str "prod")]])]

/-- If a successfully normalized record carries a `ServerlessConfig` other
than `None`, then the raw engine string started with `aurora` and the raw
scaling field was present and truthy. -/
theorem parse_serverless_only_when
    (inst : PyDict) (a r t : String) (record : PyDict)
    (hok : parseInstanceCore inst a r t = Except.ok record)
    (w : PyVal)
    (hlookup : List.lookup "ServerlessConfig" record = some w)
    (hw : w ≠ PyVal.none) :
    pyStartswith (dictGetD inst "Engine" (PyVal.str "")) "aurora" = Except.ok true ∧
    pyTruthy (dictGet inst "ServerlessV2ScalingConfiguration") = true := by
  unfold parseInstanceCore at hok
  split at hok
  · exact absurd hok (by simp)
  · rename_i isAurora hsw
    split at hok
    · exact absurd hok (by simp)
    · rename_i scfg heq2
      by_cases hcond2 :
          (isAurora && pyTruthy (dictGet inst "ServerlessV2ScalingConfiguration")) = true
      · rcases Bool.and_eq_true_iff.mp hcond2 with ⟨ha1, ha2⟩
        exact ⟨ha1 ▸ hsw, ha2⟩
      · exfalso
        rw [Bool.not_eq_true] at hcond2
        rw [hcond2] at heq2
        simp only [Bool.false_eq_true, if_false] at heq2
        injection heq2 with heq2b
        subst heq2b
        split at hok
        · exact absurd hok (by simp)
        · split at hok
          · exact absurd hok (by simp)
          · split at hok
            · exact absurd hok (by simp)
            · cases hok
              simp [List.lookup] at hlookup
              exact hw hlookup.symm

/-- C8: the record built from `rawProdTagged` has `Tags` equal to the map
`{env: prod}` and its `ServerlessConfig` field set to `None` (no scaling
object, rather than an empty one); and in general a record carries a
non-`None` `ServerlessConfig` only when the raw engine name is a string
starting with `aurora` and the raw `ServerlessV2ScalingConfiguration` field
is present and truthy. -/
theorem tags_and_serverless_normalization :
    (∀ a r t,
      List.lookup "Tags" (_parse_instance_data rawProdTagged a r t)
        = some (PyVal.dict [("env", PyVal.str "prod")]) ∧
      List.lookup "ServerlessConfig" (_parse_instance_data rawProdTagged a r t)
        = some PyVal.none) ∧
    (∀ (inst : PyDict) (a r t : String) (v : PyVal),
      List.lookup "ServerlessConfig" (_parse_instance_data inst a r t) = some v →
      v ≠ PyVal.none →
      pyStartswith (dictGetD inst "Engine" (PyVal.str "")) "aurora" = Except.ok true ∧
      pyTruthy (dictGet inst "ServerlessV2ScalingConfiguration") = true) := by
  constructor
  · intro a r t
    exact ⟨rfl, rfl⟩
  · intro inst a r t v hlookup hv
    unfold _parse_instance_data at hlookup
    cases hcore : parseInstanceCore inst a r t with
    | error e =>
        rw [hcore] at hlookup
        simp [parseFallbackRecord, List.lookup] at hlookup
    | ok record =>
        rw [hcore] at hlookup
        exact parse_serverless_only_when inst a r t record hcore v hlookup hv

/-- An aurora-engine raw descriptor with a populated capacity-scaling
configuration. -/
def rawAuroraScaling : PyDict :=
  [("Engine", PyVal.str "aurora-mysql"),
   ("ServerlessV2ScalingConfiguration",
     PyVal.dict [("MinCapacity", PyVal.int 1), ("MaxCapacity", PyVal.int 8)])]

/-- Witness for C8 at a concrete aurora descriptor whose record carries a
populated scaling block. -/
theorem tags_and_serverless_normalization_witness :
    pyStartswith (dictGetD rawAuroraScaling "Engine" (PyVal.str "")) "aurora"
      = Except.ok true ∧
    pyTruthy (dictGet rawAuroraScaling "ServerlessV2ScalingConfiguration") = true :=
  tags_and_serverless_normalization.2 rawAuroraScaling "111" "us-east-1" "ts"
    (PyVal.dict [("MinCapacity", PyVal.int 1), ("MaxCapacity", PyVal.int 8)])
    (by rfl) (by simp)

/-- C9: when normalization of a raw descriptor raises, `_parse_instance_data`
catches the exception and returns the three-field fallback record
(`AccountId`, `Region`, `Error`); that record is a non-empty dict, hence
truthy, so the `if parsed_instance:` filter keeps it and the record is
counted in the collected list for the (account, region) task. -/
theorem parse_error_fallback_included
    (inst : PyDict) (a r t : String) (e : PyErr)
    (herr : parseInstanceCore inst a r t = Except.error e) :
    _parse_instance_data inst a r t
      = [("AccountId", PyVal.str a), ("Region", PyVal.str r),
         ("Error", PyVal.str e.message)] ∧
    pyTruthy (PyVal.dict (_parse_instance_data inst a r t)) = true ∧
    (∀ fetch : String → String → FetchOutcome,
      fetch a r = FetchOutcome.ok [inst] →
      collect_instance_data fetch t a r = [parseFallbackRecord a r e]) := by
  have hparse : _parse_instance_data inst a r t = parseFallbackRecord a r e := by
    unfold _parse_instance_data
    rw [herr]
  refine ⟨hparse, ?_, ?_⟩
  · rw [hparse]
    rfl
  · intro fetch hf
    unfold collect_instance_data
    rw [hf]
    simp [hparse, parseFallbackRecord, pyTruthy]

/-- Witness for C9: a descriptor whose tag list holds a tag without a `Key`
field makes the tag comprehension raise `KeyError`; the task still collects
the fallback record. -/
theorem parse_error_fallback_included_witness :
    _parse_instance_data
        [("TagList", PyVal.list [PyVal.dict [("Value", PyVal.str "prod")]])]
        "111" "us-east-1" "ts"
      = [("AccountId", PyVal.str "111"), ("Region", PyVal.str "us-east-1"),
         ("Error", PyVal.str (PyErr.keyError "Key").message)] ∧
    collect_instance_data
        (fun _ _ => FetchOutcome.ok
          [[("TagList", PyVal.list [PyVal.dict [("Value", PyVal.str "prod")]])]])
        "ts" "111" "us-east-1"
      = [parseFallbackRecord "111" "us-east-1" (PyErr.keyError "Key")] := by
  have h := parse_error_fallback_included
    [("TagList", PyVal.list [PyVal.dict [("Value", PyVal.str "prod")]])]
    "111" "us-east-1" "ts" (PyErr.keyError "Key") rfl
  exact ⟨h.1, h.2.2 _ rfl⟩

/-- A list with a member satisfying `p` strictly shrinks when the satisfying
members are filtered out. -/
theorem length_filter_not_lt_of_any {α : Type} (p : α → Bool) (l : List α)
    (h : l.any p = true) :
    (l.filter (fun x => !(p x))).length < l.length := by
  induction l with
  | nil => cases h
  | cons x rest ih =>
      by_cases hx : p x = true
      · rw [List.filter_cons, hx]
        simp only [Bool.not_true, Bool.false_eq_true, if_false, List.length_cons]
        exact Nat.lt_succ_of_le (List.length_filter_le _ _)
      · rw [Bool.not_eq_true] at hx
        rw [List.any_cons, hx, Bool.false_or] at h
        rw [List.filter_cons, hx]
        simp only [Bool.not_false, if_true, List.length_cons]
        exact Nat.succ_lt_succ (ih h)

/-- The eviction loop leaves a list that is already below the bound alone. -/
theorem evictWhileFull_of_lt (m : Nat) (l : List CacheEntry) (h : l.length < m) :
    evictWhileFull m l = l := by
  cases l with
  | nil => rfl
  | cons e rest =>
      unfold evictWhileFull
      rw [if_neg]
      simp only [List.length_cons] at h
      omega

/-- The eviction loop always frees a slot: the result is strictly below the
bound. -/
theorem evictWhileFull_length_lt (m : Nat) (hm : 1 ≤ m) (l : List CacheEntry) :
    (evictWhileFull m l).length < m := by
  induction l with
  | nil => simpa [evictWhileFull] using hm
  | cons e rest ih =>
      unfold evictWhileFull
      by_cases hc : m ≤ rest.length + 1
      · rw [if_pos hc]
        exact ih
      · rw [if_neg hc]
        simp only [List.length_cons]
        omega

/-- C10: the session cache never exceeds its `maxsize` bound on insertion;
with the manager's bound of 100, inserting a session for a 101st distinct
account while all 100 entries are still live evicts the least-recently-used
entry even though its TTL has not elapsed, and the next `get_session` for
the evicted account performs a fresh construction-and-validation cycle. -/
theorem session_cache_bounded_eviction
    (cache : TTLCacheState) (now : Nat) (k : String) (v : Session) :
    (cache.entries.length ≤ cache.maxsize → 1 ≤ cache.maxsize →
      (ttlSetItem cache now k v).entries.length ≤ cache.maxsize) ∧
    (cache.maxsize = 100 → cache.entries.length = 100 →
      (cache.entries.map CacheEntry.key).Nodup →
      (∀ e ∈ cache.entries, now < e.expires) →
      (∀ e ∈ cache.entries, e.key ≠ k) →
      (ttlSetItem cache now k v).entries
          = cache.entries.tail ++ [⟨k, v, now + cache.ttl⟩] ∧
      ∀ e0, cache.entries.head? = some e0 →
        (∀ e ∈ (ttlSetItem cache now k v).entries, e.key ≠ e0.key) ∧
        now < e0.expires ∧
        ∀ profile_exists sts_ok : String → Bool,
          profile_exists ("AdministratorAccess-" ++ e0.key) = true →
          (get_session profile_exists sts_ok (ttlSetItem cache now k v)
              e0.key now).validation_calls = 1 ∧
          (get_session profile_exists sts_ok (ttlSetItem cache now k v)
              e0.key now).session_constructions = 1) := by
  constructor
  · intro hlen hpos
    simp only [ttlSetItem, ttlExpire]
    have hlen1 : (cache.entries.filter (fun e => decide (now < e.expires))).length
        ≤ cache.entries.length := List.length_filter_le _ _
    by_cases hany : (cache.entries.filter (fun e => decide (now < e.expires))).any
        (fun e => e.key == k) = true
    · rw [if_pos hany]
      have hdrop : ((cache.entries.filter (fun e => decide (now < e.expires))).filter
          (fun e => !(e.key == k))).length
          < (cache.entries.filter (fun e => decide (now < e.expires))).length :=
        length_filter_not_lt_of_any (fun e : CacheEntry => e.key == k) _ hany
      simp only [List.length_append, List.length_cons, List.length_nil]
      omega
    · rw [if_neg hany]
      have hev := evictWhileFull_length_lt cache.maxsize hpos
        (cache.entries.filter (fun e => decide (now < e.expires)))
      simp only [List.length_append, List.length_cons, List.length_nil]
      omega
  · intro hmax hlen hnodup hlive hfresh
    have hexp : cache.entries.filter (fun e => decide (now < e.expires))
        = cache.entries := by
      rw [List.filter_eq_self]
      intro e he
      exact decide_eq_true (hlive e he)
    have hany : cache.entries.any (fun e => e.key == k) = false := by
      rw [List.any_eq_false]
      intro e he
      simp only [beq_iff_eq]
      exact hfresh e he
    have hent : (ttlSetItem cache now k v).entries
        = cache.entries.tail ++ [⟨k, v, now + cache.ttl⟩] := by
      simp only [ttlSetItem, ttlExpire, hexp, hany, Bool.false_eq_true, if_false]
      cases hcase : cache.entries with
      | nil =>
          rw [hcase] at hlen
          simp at hlen
      | cons e0 rest =>
          have hr : rest.length = 99 := by
            rw [hcase] at hlen
            simpa using hlen
          rw [hmax]
          unfold evictWhileFull
          rw [if_pos (by omega), evictWhileFull_of_lt 100 rest (by omega)]
          rfl
    refine ⟨hent, fun e0 he0 => ?_⟩
    have hmem0 : e0 ∈ cache.entries := by
      cases hcase : cache.entries with
      | nil => rw [hcase] at he0; cases he0
      | cons x rest =>
          rw [hcase] at he0
          injection he0 with hx
          rw [← hx]
          exact List.mem_cons_self x rest
    have habsent : ∀ e ∈ (ttlSetItem cache now k v).entries, e.key ≠ e0.key := by
      rw [hent]
      intro e he
      rcases List.mem_append.mp he with h | h
      · cases hcase : cache.entries with
        | nil => rw [hcase] at he0; cases he0
        | cons x rest =>
            rw [hcase] at he0 hnodup
            injection he0 with hx
            rw [hcase] at h
            simp only [List.tail_cons] at h
            rw [List.map_cons, List.nodup_cons] at hnodup
            intro hkey
            exact hnodup.1 (hx ▸ hkey ▸ List.mem_map_of_mem CacheEntry.key h)
      · rw [List.mem_singleton] at h
        subst h
        exact fun hkey => hfresh e0 hmem0 hkey.symm
    have hcont : ttlContains (ttlSetItem cache now k v) now e0.key = false := by
      unfold ttlContains
      rw [List.any_eq_false]
      intro e he
      simp only [Bool.and_eq_true, beq_iff_eq, not_and]
      exact fun hkey _ => habsent e he hkey
    refine ⟨habsent, hlive e0 hmem0, fun profile_exists sts_ok hpe => ?_⟩
    cases h2 : sts_ok e0.key <;>
      simp [get_session, hcont, hpe, h2]

/-- The cache state after the manager has served 100 distinct accounts, all
entries still live at instant 100 (inserted at instant 0 with the 8-hour
TTL). -/
def fullCacheEntries : List CacheEntry :=
  (List.range 100).map
    (fun i => ⟨toString i,
      Session.profile ("AdministratorAccess-" ++ toString i) DEFAULT_REGION, 28800⟩)

/-- A full 100-entry manager cache. -/
def fullCache : TTLCacheState :=
  { maxsize := 100, ttl := 28800, entries := fullCacheEntries }

/-- Witness for C10: inserting a 101st distinct account `fresh` into the full
cache keeps the size at the bound, evicts the least-recently-used entry
(account `0`, still 28700 seconds short of its TTL), and the next
`get_session` for account `0` performs one construction and one validation
round trip. -/
theorem session_cache_bounded_eviction_witness :
    (ttlSetItem fullCache 100 "fresh"
        (Session.profile "AdministratorAccess-fresh" DEFAULT_REGION)).entries.length
      ≤ fullCache.maxsize ∧
    (ttlSetItem fullCache 100 "fresh"
        (Session.profile "AdministratorAccess-fresh" DEFAULT_REGION)).entries
      = fullCache.entries.tail
        ++ [⟨"fresh", Session.profile "AdministratorAccess-fresh" DEFAULT_REGION,
             100 + fullCache.ttl⟩] ∧
    (get_session (fun _ => true) (fun _ => true)
        (ttlSetItem fullCache 100 "fresh"
          (Session.profile "AdministratorAccess-fresh" DEFAULT_REGION))
        "0" 100).validation_calls = 1 := by
  have h1 := (session_cache_bounded_eviction fullCache 100 "fresh"
    (Session.profile "AdministratorAccess-fresh" DEFAULT_REGION)).1
    (by decide) (by decide)
  have h2 := (session_cache_bounded_eviction fullCache 100 "fresh"
    (Session.profile "AdministratorAccess-fresh" DEFAULT_REGION)).2
    rfl (by decide) (by decide) (by decide) (by decide)
  refine ⟨h1, h2.1, ?_⟩
  have h3 := h2.2
    ⟨"0", Session.profile "AdministratorAccess-0" DEFAULT_REGION, 28800⟩ (by rfl)
  exact (h3.2.2 (fun _ => true) (fun _ => true) rfl).1

end RdsInfo
